import Mathlib

/-!
Verification of the boxer-record and leaderboard model of `411-resources`.

The definitions below are a shallow embedding of
`src/hw2/boxing/models/boxers_model.py` (the connection-based variant, the
self-consistent one of the two implementations in the repository; the
class-based variant in `src/HW/HW3 caching/boxing/boxing/models/boxers_model.py`
is embedded separately where the two diverge).  The sqlite table `boxers` is
modelled as a list of records, numeric columns as rationals and integers, and
each `raise` site of the Python code as one constructor of an error type.
-/

namespace Boxing

/-- Weight classes returned by `get_weight_class`. -/
inductive WeightClass where
  | FEATHERWEIGHT
  | LIGHTWEIGHT
  | MIDDLEWEIGHT
  | HEAVYWEIGHT
deriving DecidableEq, Repr

/-- One constructor per distinct `raise` site of `boxers_model.py`.
`invalidWeight` … `invalidAge` are the ValueErrors of the range checks,
`invalidName` is the HW3 name check's ValueError, `duplicateName` the
ValueError raised for an existing name (the spec's `ConflictError`),
`integrityError` the raw `sqlite3.IntegrityError` of the persistence layer,
`notFound` the "not found" ValueErrors (the spec's `NotFoundError`),
`invalidResult` and `invalidSortBy` the remaining argument checks. -/
inductive Err where
  | invalidWeight
  | invalidHeight
  | invalidReach
  | invalidAge
  | invalidName
  | duplicateName
  | integrityError
  | notFound
  | invalidResult
  | invalidSortBy
deriving DecidableEq, Repr

/-- Embeds `get_weight_class(weight)` of `hw2/boxing/models/boxers_model.py`
(lines 231-254): the descending chain of `>=` tests, raising ValueError below
125.  Weight is modelled as a rational, matching the spec's "numeric". -/
def get_weight_class (weight : ℚ) : Except Err WeightClass :=
  if weight ≥ 203 then .ok .HEAVYWEIGHT
  else if weight ≥ 166 then .ok .MIDDLEWEIGHT
  else if weight ≥ 133 then .ok .LIGHTWEIGHT
  else if weight ≥ 125 then .ok .FEATHERWEIGHT
  else .error .invalidWeight

/-- The total restriction of `get_weight_class` to valid weights; used to
describe the successful branch. -/
def weight_class_total (weight : ℚ) : WeightClass :=
  if weight ≥ 203 then .HEAVYWEIGHT
  else if weight ≥ 166 then .MIDDLEWEIGHT
  else if weight ≥ 133 then .LIGHTWEIGHT
  else .FEATHERWEIGHT

theorem get_weight_class_of_valid {w : ℚ} (h : 125 ≤ w) :
    get_weight_class w = .ok (weight_class_total w) := by
  unfold get_weight_class weight_class_total
  split_ifs with h1 h2 h3 h4 <;> first | rfl | (exact absurd h (by linarith))

/-- C1: `classify(w)` follows the boundary table: HEAVYWEIGHT for w ≥ 203,
MIDDLEWEIGHT for 166 ≤ w < 203, LIGHTWEIGHT for 133 ≤ w < 166, FEATHERWEIGHT
for 125 ≤ w < 133, and a ValidationError exactly when w < 125; every boundary
is inclusive of its lower bound. -/
theorem spec_C1 (w : ℚ) :
    (get_weight_class w = .ok .HEAVYWEIGHT ↔ 203 ≤ w) ∧
    (get_weight_class w = .ok .MIDDLEWEIGHT ↔ 166 ≤ w ∧ w < 203) ∧
    (get_weight_class w = .ok .LIGHTWEIGHT ↔ 133 ≤ w ∧ w < 166) ∧
    (get_weight_class w = .ok .FEATHERWEIGHT ↔ 125 ≤ w ∧ w < 133) ∧
    (get_weight_class w = .error .invalidWeight ↔ w < 125) := by
  unfold get_weight_class
  split_ifs with h1 h2 h3 h4 <;>
    refine ⟨?_, ?_, ?_, ?_, ?_⟩ <;> constructor <;> intro h <;>
    first
      | rfl
      | linarith
      | (constructor <;> linarith)
      | (simp at h)
      | (exfalso; linarith)
      | (exfalso; obtain ⟨ha, hb⟩ := h; linarith)

/-- One row of the sqlite `boxers` table: the columns named in the schema and
queries of `boxers_model.py`.  `fights` and `wins` start at 0 (database
default, per the spec and the `INSERT` that omits them). -/
structure BoxerRec where
  id : ℕ
  name : String
  weight : ℚ
  height : ℚ
  reach : ℚ
  age : ℤ
  fights : ℕ
  wins : ℕ
deriving DecidableEq, Repr

/-- The `boxers` table, as the list of its rows. -/
abbrev DB := List BoxerRec

/-- Embeds the persistence layer's `INSERT` with the table's uniqueness
constraint on `name`: a duplicate name raises `sqlite3.IntegrityError`. -/
def db_insert (db : DB) (r : BoxerRec) : Except Err DB :=
  if db.any (fun b => b.name == r.name) then .error .integrityError
  else .ok (db ++ [r])

/-- Embeds the `except sqlite3.IntegrityError: raise ValueError(...)` handler
of `create_boxer` (hw2, lines 71-72): a raw integrity error is translated to
the duplicate-name ValueError, every other outcome passes through. -/
def translate_integrity (r : Except Err DB) : Except Err DB :=
  match r with
  | .error .integrityError => .error .duplicateName
  | r => r

/-- Embeds `create_boxer(name, weight, height, reach, age)` of
`hw2/boxing/models/boxers_model.py` (lines 28-75): the four range checks in
order (weight, height, reach, age), then the `SELECT 1 ... WHERE name = ?`
existence check (exact comparison, no trimming), then the `INSERT` with the
integrity-error translation.  `next_id` stands for the id the database
assigns.  Note the Python code validates no property of `name`. -/
def create_boxer (db : DB) (next_id : ℕ) (name : String)
    (weight height reach : ℚ) (age : ℤ) : Except Err DB :=
  if weight < 125 then .error .invalidWeight
  else if height ≤ 0 then .error .invalidHeight
  else if reach ≤ 0 then .error .invalidReach
  else if ¬(18 ≤ age ∧ age ≤ 40) then .error .invalidAge
  else if db.any (fun b => b.name == name) then .error .duplicateName
  else translate_integrity (db_insert db ⟨next_id, name, weight, height, reach, age, 0, 0⟩)

/-- The `Boxer` dataclass of hw2: `__post_init__` derives `weight_class` from
`weight` via `get_weight_class`. -/
structure Boxer where
  id : ℕ
  name : String
  weight : ℚ
  height : ℚ
  reach : ℚ
  age : ℤ
  weight_class : WeightClass
deriving DecidableEq, Repr

/-- Embeds constructing `Boxer(...)`: `__post_init__` calls
`get_weight_class(self.weight)`, whose ValueError propagates. -/
def mk_boxer (id : ℕ) (name : String) (weight height reach : ℚ) (age : ℤ) :
    Except Err Boxer :=
  match get_weight_class weight with
  | .error e => .error e
  | .ok wc => .ok ⟨id, name, weight, height, reach, age, wc⟩

/-- Embeds `get_boxer_by_id(boxer_id)` (hw2, lines 157-191): `SELECT ...
WHERE id = ?`, building a `Boxer` from the row if present, raising the
not-found ValueError otherwise. -/
def get_boxer_by_id (db : DB) (boxer_id : ℕ) : Except Err Boxer :=
  match db.find? (fun b => b.id == boxer_id) with
  | some r => mk_boxer r.id r.name r.weight r.height r.reach r.age
  | none => .error .notFound

/-- Embeds `get_boxer_by_name(boxer_name)` (hw2, lines 194-229): `SELECT ...
WHERE name = ?` with the input name used exactly as given (no trimming),
raising the not-found ValueError when no row matches. -/
def get_boxer_by_name (db : DB) (boxer_name : String) : Except Err Boxer :=
  match db.find? (fun b => b.name == boxer_name) with
  | some r => mk_boxer r.id r.name r.weight r.height r.reach r.age
  | none => .error .notFound

/-- Embeds `Boxers.__init__` of the HW3 variant
(`src/HW/HW3 caching/boxing/boxing/models/boxers_model.py`, lines 34-59): the
four range checks, then `if not self.name or not isinstance(self.name, str)`.
That check reads `self.name`, which has not been assigned yet at that point
(`self.name = name` only runs in the `else` arm); under the ORM's attribute
defaulting the unset column attribute is `None`, so the check is modelled as
reading `none` and therefore fires on every call that passes the range
checks, regardless of the `name` argument. -/
def Boxers_init (name : String) (weight height reach : ℚ) (age : ℤ) :
    Except Err String :=
  if weight < 125 then .error .invalidWeight
  else if height ≤ 0 then .error .invalidHeight
  else if reach ≤ 0 then .error .invalidReach
  else if ¬(18 ≤ age ∧ age ≤ 40) then .error .invalidAge
  else
    let self_name : Option String := none
    if self_name.getD "" = "" then .error .invalidName
    else .ok name

/-- Embeds `update_boxer_stats(boxer_id, result)` (hw2, lines 257-288).  The
second component counts the persistence operations executed (the existence
`SELECT` and the `UPDATE`): the `result not in {'win', 'loss'}` check runs
before any database access, then the existence check, then one `UPDATE` that
increments `fights` and, for a win, `wins`. -/
def update_boxer_stats (db : DB) (boxer_id : ℕ) (result : String) :
    Except Err DB × ℕ :=
  if result ≠ "win" ∧ result ≠ "loss" then (.error .invalidResult, 0)
  else
    match db.find? (fun b => b.id == boxer_id) with
    | none => (.error .notFound, 1)
    | some _ =>
      if result = "win" then
        (.ok (db.map fun b =>
          if b.id == boxer_id then
            { b with fights := b.fights + 1, wins := b.wins + 1 }
          else b), 2)
      else
        (.ok (db.map fun b =>
          if b.id == boxer_id then { b with fights := b.fights + 1 } else b), 2)

/-- One `update_boxer_stats` call as a state transition: a raised ValueError
leaves the table as it was (nothing was committed). -/
def stepDB (db : DB) (c : ℕ × String) : DB :=
  match (update_boxer_stats db c.1 c.2).1 with
  | .ok db' => db'
  | .error _ => db

/-- A sequence of `update_boxer_stats` calls applied in order. -/
def runDB (db : DB) (cs : List (ℕ × String)) : DB :=
  cs.foldl stepDB db

theorem update_ok_shape {db : DB} {boxer_id : ℕ} {result : String} {db' : DB}
    (h : (update_boxer_stats db boxer_id result).1 = .ok db') :
    ∀ b' ∈ db', ∃ b ∈ db,
      b' = b ∨ b' = { b with fights := b.fights + 1, wins := b.wins + 1 } ∨
      b' = { b with fights := b.fights + 1 } := by
  unfold update_boxer_stats at h
  split at h
  · simp at h
  · split at h
    · simp at h
    · split at h <;>
      · simp only [Prod.fst] at h
        injection h with h
        subst h
        intro b' hb'
        obtain ⟨b, hb, hfb⟩ := List.mem_map.mp hb'
        refine ⟨b, hb, ?_⟩
        by_cases hid : (b.id == boxer_id) = true <;> simp [hid] at hfb <;> simp [← hfb]

/-- C2: with an existing boxer id and a recognized outcome, `recordResult`
adds one fight and adds one win exactly when the outcome is a win; every
other boxer's row is unchanged. -/
theorem spec_C2 (db : DB) (boxer_id : ℕ) (result : String)
    (hres : result = "win" ∨ result = "loss")
    (hex : ∃ b ∈ db, b.id = boxer_id) :
    ∃ db', (update_boxer_stats db boxer_id result).1 = .ok db' ∧
      (∀ b ∈ db, b.id = boxer_id →
        ({ b with fights := b.fights + 1,
                  wins := if result = "win" then b.wins + 1 else b.wins } : BoxerRec) ∈ db') ∧
      (∀ b ∈ db, b.id ≠ boxer_id → b ∈ db') := by
  obtain ⟨b0, hb0, hid0⟩ := hex
  have hcond : ¬(result ≠ "win" ∧ result ≠ "loss") := by
    rcases hres with h | h <;> simp [h]
  obtain ⟨r0, hr0⟩ : ∃ r0, db.find? (fun b => b.id == boxer_id) = some r0 := by
    rw [← Option.isSome_iff_exists, List.find?_isSome]
    exact ⟨b0, hb0, by simp [hid0]⟩
  rcases eq_or_ne result "win" with hw | hw
  · subst hw
    refine ⟨db.map (fun b => if b.id == boxer_id then
        { b with fights := b.fights + 1, wins := b.wins + 1 } else b), ?_, ?_, ?_⟩
    · simp [update_boxer_stats, if_neg hcond, hr0]
    · intro b hb hbid
      simp only [if_pos rfl]
      exact List.mem_map.mpr ⟨b, hb, by simp [hbid]⟩
    · intro b hb hbid
      exact List.mem_map.mpr ⟨b, hb, by simp [hbid]⟩
  · have hl : result = "loss" := hres.resolve_left hw
    refine ⟨db.map (fun b => if b.id == boxer_id then
        { b with fights := b.fights + 1 } else b), ?_, ?_, ?_⟩
    · simp [update_boxer_stats, if_neg hcond, hr0, if_neg hw]
    · intro b hb hbid
      simp only [if_neg hw]
      exact List.mem_map.mpr ⟨b, hb, by simp [hbid]⟩
    · intro b hb hbid
      exact List.mem_map.mpr ⟨b, hb, by simp [hbid]⟩

/-- Witness for C2 at a fresh boxer: a win is recorded, and a win followed
by a loss yields fights = 2 and wins = 1. -/
theorem spec_C2_witness :
    (∃ db', (update_boxer_stats [⟨1, "Ali", 150, 70, 20, 25, 0, 0⟩] 1 "win").1 = .ok db' ∧
      (∀ b ∈ [(⟨1, "Ali", 150, 70, 20, 25, 0, 0⟩ : BoxerRec)], b.id = 1 →
        ({ b with fights := b.fights + 1,
                  wins := if "win" = "win" then b.wins + 1 else b.wins } : BoxerRec) ∈ db') ∧
      (∀ b ∈ [(⟨1, "Ali", 150, 70, 20, 25, 0, 0⟩ : BoxerRec)], b.id ≠ 1 → b ∈ db')) ∧
    runDB [⟨1, "Ali", 150, 70, 20, 25, 0, 0⟩] [(1, "win"), (1, "loss")] =
      [⟨1, "Ali", 150, 70, 20, 25, 2, 1⟩] :=
  ⟨spec_C2 [⟨1, "Ali", 150, 70, 20, 25, 0, 0⟩] 1 "win" (Or.inl rfl)
      ⟨⟨1, "Ali", 150, 70, 20, 25, 0, 0⟩, by simp, rfl⟩,
    by decide⟩

theorem stepDB_inv {db : DB} (c : ℕ × String)
    (h : ∀ b ∈ db, b.wins ≤ b.fights) : ∀ b ∈ stepDB db c, b.wins ≤ b.fights := by
  unfold stepDB
  rcases hx : (update_boxer_stats db c.1 c.2).1 with e | db'
  · exact h
  · intro b' hb'
    obtain ⟨b, hb, hcase⟩ := update_ok_shape hx b' hb'
    have := h b hb
    rcases hcase with h1 | h1 | h1 <;> subst h1 <;> simp <;> omega

/-- C3: starting from any table in which every boxer has wins ≤ fights (in
particular a fresh boxer with 0 and 0), the invariant wins ≤ fights holds
after any sequence of `recordResult` calls, hence after every mutation. -/
theorem spec_C3 (db : DB) (h : ∀ b ∈ db, b.wins ≤ b.fights)
    (cs : List (ℕ × String)) : ∀ b ∈ runDB db cs, b.wins ≤ b.fights := by
  induction cs generalizing db with
  | nil => simpa [runDB] using h
  | cons c cs ih =>
      have h1 := stepDB_inv c h
      simpa [runDB, List.foldl_cons] using ih (stepDB db c) h1

/-- Witness for C3: a fresh boxer taken through a win, a loss, a rejected
outcome and a miss on a nonexistent id keeps wins ≤ fights. -/
theorem spec_C3_witness :
    (⟨1, "Ali", 150, 70, 20, 25, 2, 1⟩ : BoxerRec).wins ≤
      (⟨1, "Ali", 150, 70, 20, 25, 2, 1⟩ : BoxerRec).fights :=
  spec_C3 [⟨1, "Ali", 150, 70, 20, 25, 0, 0⟩] (by decide)
    [(1, "win"), (1, "draw"), (2, "win"), (1, "loss")]
    ⟨1, "Ali", 150, 70, 20, 25, 2, 1⟩ (by decide)

/-- C8: an unrecognized outcome makes `recordResult` raise the invalid-result
ValidationError, and the table (so every fights/wins counter) is unchanged. -/
theorem spec_C8 (db : DB) (boxer_id : ℕ) (result : String)
    (h1 : result ≠ "win") (h2 : result ≠ "loss") :
    (update_boxer_stats db boxer_id result).1 = .error .invalidResult ∧
      stepDB db (boxer_id, result) = db := by
  have hu : update_boxer_stats db boxer_id result = (.error .invalidResult, 0) := by
    unfold update_boxer_stats
    rw [if_pos ⟨h1, h2⟩]
  exact ⟨by rw [hu], by unfold stepDB; rw [hu]⟩

/-- Witness for C8 at outcome "draw" on a one-boxer table. -/
theorem spec_C8_witness :
    (update_boxer_stats [⟨1, "Ali", 150, 70, 20, 25, 3, 2⟩] 1 "draw").1 =
        .error .invalidResult ∧
      stepDB [⟨1, "Ali", 150, 70, 20, 25, 3, 2⟩] (1, "draw") =
        [⟨1, "Ali", 150, 70, 20, 25, 3, 2⟩] :=
  spec_C8 [⟨1, "Ali", 150, 70, 20, 25, 3, 2⟩] 1 "draw" (by decide) (by decide)

/-- C10: the outcome check of `recordResult` runs before the existence check:
for an id that matches no row and an unrecognized outcome the call raises the
invalid-result ValidationError (not the not-found error) and performs zero
persistence operations (the second component of `update_boxer_stats`). -/
theorem spec_C10 (db : DB) (boxer_id : ℕ) (result : String)
    (h1 : result ≠ "win") (h2 : result ≠ "loss")
    (h3 : ∀ b ∈ db, b.id ≠ boxer_id) :
    update_boxer_stats db boxer_id result = (.error .invalidResult, 0) := by
  unfold update_boxer_stats
  rw [if_pos ⟨h1, h2⟩]

/-- Witness for C10: outcome "draw" on an id absent from the table. -/
theorem spec_C10_witness :
    update_boxer_stats [⟨1, "Ali", 150, 70, 20, 25, 0, 0⟩] 2 "draw" =
      (.error .invalidResult, 0) :=
  spec_C10 [⟨1, "Ali", 150, 70, 20, 25, 0, 0⟩] 2 "draw" (by decide) (by decide)
    (by decide)

/-- Python's `str.strip()` with no argument: the string with leading and
trailing whitespace removed.  Used by the HW3 variant and by the spec's
notion of a "trimmed" name; the hw2 variant never calls it. -/
def py_strip (s : String) : String :=
  ⟨((s.data.dropWhile Char.isWhitespace).reverse.dropWhile Char.isWhitespace).reverse⟩

/-- C6 (code bug): the name check claimed as the fifth validation is not
implemented.  hw2's `create_boxer` performs no name validation, so an empty
name with otherwise valid fields is inserted instead of raising a
ValidationError; and the HW3 `Boxers.__init__` check misreads the unset
`self.name` instead of the `name` argument, so it rejects even a valid,
non-empty name. -/
theorem spec_C6_bug :
    create_boxer [] 1 "" 150 70 20 25 = .ok [⟨1, "", 150, 70, 20, 25, 0, 0⟩] ∧
    Boxers_init "Muhammad Ali" 150 70 20 25 = .error .invalidName := by
  constructor <;> rfl

/-- C7 counterexample: with "Ali" stored, creating " Ali" — the same name
after trimming — succeeds instead of raising the claimed ConflictError,
because hw2 compares names exactly, without trimming. -/
theorem spec_C7_counterexample :
    py_strip " Ali" = "Ali" ∧
    create_boxer [⟨1, "Ali", 150, 70, 20, 25, 0, 0⟩] 2 " Ali" 150 70 20 25 =
      .ok [⟨1, "Ali", 150, 70, 20, 25, 0, 0⟩, ⟨2, " Ali", 150, 70, 20, 25, 0, 0⟩] := by
  constructor <;> rfl

/-- C7 amended: with a boxer of the same exact (untrimmed) name already
stored, `create` fails with the duplicate-name ConflictError; the existence
check fires before the insert, no `create` call ever surfaces the raw
persistence-layer integrity error, and the handler translates that raw error
to the same ConflictError. -/
theorem spec_C7_amended (db : DB) (next_id : ℕ) (name : String)
    (w h r : ℚ) (a : ℤ)
    (hw : 125 ≤ w) (hh : 0 < h) (hr : 0 < r) (ha1 : 18 ≤ a) (ha2 : a ≤ 40)
    (hex : ∃ b ∈ db, b.name = name) :
    create_boxer db next_id name w h r a = .error .duplicateName ∧
    (∀ (db2 : DB) (nid2 : ℕ) (n2 : String) (w2 h2 r2 : ℚ) (a2 : ℤ),
      create_boxer db2 nid2 n2 w2 h2 r2 a2 ≠ .error .integrityError) ∧
    translate_integrity (.error .integrityError) = .error .duplicateName := by
  refine ⟨?_, ?_, rfl⟩
  · obtain ⟨b0, hb0, hn0⟩ := hex
    have hdup : db.any (fun b => b.name == name) = true :=
      List.any_eq_true.mpr ⟨b0, hb0, by simp [hn0]⟩
    unfold create_boxer
    rw [if_neg (by linarith), if_neg (by linarith), if_neg (by linarith),
      if_neg (by simp; omega), if_pos hdup]
  · intro db2 nid2 n2 w2 h2 r2 a2
    unfold create_boxer translate_integrity db_insert
    split_ifs <;> simp

/-- Witness for C7's amended claim: creating "Ali" a second time, with valid
fields, raises the duplicate-name error. -/
theorem spec_C7_amended_witness :
    create_boxer [⟨1, "Ali", 150, 70, 20, 25, 0, 0⟩] 2 "Ali" 150 70 20 25 =
      .error .duplicateName ∧
    (∀ (db2 : DB) (nid2 : ℕ) (n2 : String) (w2 h2 r2 : ℚ) (a2 : ℤ),
      create_boxer db2 nid2 n2 w2 h2 r2 a2 ≠ .error .integrityError) ∧
    translate_integrity (.error .integrityError) = .error .duplicateName :=
  spec_C7_amended [⟨1, "Ali", 150, 70, 20, 25, 0, 0⟩] 2 "Ali" 150 70 20 25
    (by norm_num) (by norm_num) (by norm_num) (by norm_num) (by norm_num)
    ⟨⟨1, "Ali", 150, 70, 20, 25, 0, 0⟩, by simp, rfl⟩

/-- C9 counterexample: with "Ali" stored, looking up " Ali " — equal to the
stored name after trimming — raises the not-found error instead of returning
the boxer, because hw2's `get_boxer_by_name` does not trim its input. -/
theorem spec_C9_counterexample :
    py_strip " Ali " = "Ali" ∧
    get_boxer_by_name [⟨1, "Ali", 150, 70, 20, 25, 0, 0⟩] " Ali " =
      .error .notFound := by
  constructor <;> rfl

/-- C9 amended: `getById` on an id with no matching row and `getByName` on a
name with no matching row each fail with the not-found error; the name is
compared exactly as given (no trimming), so a name that matches a stored name
only after trimming surrounding whitespace is not found. -/
theorem spec_C9_amended :
    (∀ (db : DB) (boxer_id : ℕ), (∀ b ∈ db, b.id ≠ boxer_id) →
      get_boxer_by_id db boxer_id = .error .notFound) ∧
    (∀ (db : DB) (name : String), (∀ b ∈ db, b.name ≠ name) →
      get_boxer_by_name db name = .error .notFound) := by
  constructor
  · intro db boxer_id h
    have hf : db.find? (fun b => b.id == boxer_id) = none := by
      rw [List.find?_eq_none]
      intro b hb
      simpa using h b hb
    unfold get_boxer_by_id
    rw [hf]
  · intro db name h
    have hf : db.find? (fun b => b.name == name) = none := by
      rw [List.find?_eq_none]
      intro b hb
      simpa using h b hb
    unfold get_boxer_by_name
    rw [hf]

/-- Witness for C9's amended claim on a one-boxer table: id 2 and the
untrimmed name " Ali " match no row, so both lookups raise not-found. -/
theorem spec_C9_amended_witness :
    get_boxer_by_id [⟨1, "Ali", 150, 70, 20, 25, 0, 0⟩] 2 = .error .notFound ∧
    get_boxer_by_name [⟨1, "Ali", 150, 70, 20, 25, 0, 0⟩] " Ali " =
      .error .notFound :=
  ⟨spec_C9_amended.1 [⟨1, "Ali", 150, 70, 20, 25, 0, 0⟩] 2 (by decide),
    spec_C9_amended.2 [⟨1, "Ali", 150, 70, 20, 25, 0, 0⟩] " Ali " (by decide)⟩

/-- Python's `round` to the nearest integer: round half to even. -/
def round_half_even (x : ℚ) : ℤ :=
  if x - ⌊x⌋ < 1/2 then ⌊x⌋
  else if 1/2 < x - ⌊x⌋ then ⌊x⌋ + 1
  else if 2 ∣ ⌊x⌋ then ⌊x⌋ else ⌊x⌋ + 1

/-- Python's `round(x, 1)`: one decimal place, half to even. -/
def round1 (x : ℚ) : ℚ := (round_half_even (x * 10) : ℚ) / 10

theorem le_round_half_even (x : ℚ) : ⌊x⌋ ≤ round_half_even x := by
  unfold round_half_even
  split_ifs <;> omega

theorem round_half_even_le (x : ℚ) : round_half_even x ≤ ⌊x⌋ + 1 := by
  unfold round_half_even
  split_ifs <;> omega

theorem round_half_even_mono {x y : ℚ} (h : x ≤ y) :
    round_half_even x ≤ round_half_even y := by
  have hf : ⌊x⌋ ≤ ⌊y⌋ := Int.floor_mono h
  rcases eq_or_lt_of_le hf with he | hl
  · unfold round_half_even
    rw [← he]
    split_ifs <;> first | omega | (exfalso; linarith)
  · calc round_half_even x ≤ ⌊x⌋ + 1 := round_half_even_le x
      _ ≤ ⌊y⌋ := by omega
      _ ≤ round_half_even y := le_round_half_even y

theorem round1_mono {x y : ℚ} (h : x ≤ y) : round1 x ≤ round1 y := by
  unfold round1
  have h1 : round_half_even (x * 10) ≤ round_half_even (y * 10) :=
    round_half_even_mono (by linarith)
  gcongr

/-- One leaderboard entry built by the loop of `get_leaderboard` (hw2, lines
136-149). -/
structure LeaderboardRow where
  id : ℕ
  name : String
  weight : ℚ
  height : ℚ
  reach : ℚ
  age : ℤ
  weight_class : WeightClass
  fights : ℕ
  wins : ℕ
  win_pct : ℚ
deriving DecidableEq, Repr

/-- The SQL column `(wins * 1.0 / fights) AS win_pct` of the leaderboard
query; the `ORDER BY win_pct DESC` key. -/
def sql_win_pct (b : BoxerRec) : ℚ := (b.wins : ℚ) / (b.fights : ℚ)

/-- One iteration of the row-building loop: the dictionary built from a
fetched row, with `weight_class` recomputed by `get_weight_class` (whose
ValueError propagates) and `win_pct` as `round(row[8] * 100, 1)`. -/
def mk_row (b : BoxerRec) : Except Err LeaderboardRow :=
  match get_weight_class b.weight with
  | .error e => .error e
  | .ok wc => .ok ⟨b.id, b.name, b.weight, b.height, b.reach, b.age, wc,
      b.fights, b.wins, round1 (sql_win_pct b * 100)⟩

/-- The total form of `mk_row` on rows whose weight classifies. -/
def mk_row_total (b : BoxerRec) : LeaderboardRow :=
  ⟨b.id, b.name, b.weight, b.height, b.reach, b.age, weight_class_total b.weight,
    b.fights, b.wins, round1 (sql_win_pct b * 100)⟩

/-- The row-building loop over the fetched rows, in order; the first
classification failure aborts the whole call. -/
def build_rows : DB → Except Err (List LeaderboardRow)
  | [] => .ok []
  | b :: rest =>
    match mk_row b with
    | .error e => .error e
    | .ok row =>
      match build_rows rest with
      | .error e => .error e
      | .ok rows => .ok (row :: rows)

/-- Embeds `get_leaderboard(sort_by)` (hw2, lines 103-155): rows with
`fights > 0` sorted descending by the selected SQL key (`win_pct` checked
first, then `wins`, anything else raising the sort ValueError), then the
row-building loop.  The database's `ORDER BY ... DESC` is modelled by
`List.insertionSort` with the reversed order (ties in unspecified order,
as in SQL). -/
def get_leaderboard (db : DB) (sort_by : String) :
    Except Err (List LeaderboardRow) :=
  if sort_by = "win_pct" then
    build_rows (List.insertionSort (fun a b => sql_win_pct b ≤ sql_win_pct a)
      (db.filter (fun b => 0 < b.fights)))
  else if sort_by = "wins" then
    build_rows (List.insertionSort (fun a b => b.wins ≤ a.wins)
      (db.filter (fun b => 0 < b.fights)))
  else .error .invalidSortBy

/-- Every weight stored through `create_boxer` is at least 125, so this
holds of every reachable table. -/
def ValidDB (db : DB) : Prop := ∀ b ∈ db, 125 ≤ b.weight

/-- The selected ordering key read off a built row. -/
def row_key (sort_by : String) (r : LeaderboardRow) : ℚ :=
  if sort_by = "win_pct" then r.win_pct else (r.wins : ℚ)

theorem mk_row_of_valid {b : BoxerRec} (h : 125 ≤ b.weight) :
    mk_row b = .ok (mk_row_total b) := by
  unfold mk_row mk_row_total
  rw [get_weight_class_of_valid h]

theorem build_rows_of_valid {l : DB} (h : ∀ b ∈ l, 125 ≤ b.weight) :
    build_rows l = .ok (l.map mk_row_total) := by
  induction l with
  | nil => rfl
  | cons b rest ih =>
      have hb := h b (List.mem_cons_self b rest)
      have hrest := ih (fun x hx => h x (List.mem_cons_of_mem b hx))
      simp [build_rows, mk_row_of_valid hb, hrest]

theorem get_weight_class_ok_eq {w : ℚ} {wc : WeightClass}
    (h : get_weight_class w = .ok wc) : wc = weight_class_total w := by
  unfold get_weight_class at h
  unfold weight_class_total
  split_ifs at h ⊢ <;> simp_all

theorem mk_row_ok_eq {b : BoxerRec} {r : LeaderboardRow}
    (h : mk_row b = .ok r) : r = mk_row_total b := by
  unfold mk_row at h
  rcases hw : get_weight_class b.weight with e | wc <;> rw [hw] at h
  · simp at h
  · injection h with h
    subst h
    unfold mk_row_total
    rw [get_weight_class_ok_eq hw]

theorem build_rows_mem {l : DB} {rows : List LeaderboardRow}
    (h : build_rows l = .ok rows) {r : LeaderboardRow} (hr : r ∈ rows) :
    ∃ b ∈ l, r = mk_row_total b := by
  induction l generalizing rows with
  | nil =>
      unfold build_rows at h
      injection h with h
      subst h
      simp at hr
  | cons b rest ih =>
      unfold build_rows at h
      rcases hm : mk_row b with e | row <;> rw [hm] at h
      · simp at h
      · rcases hb : build_rows rest with e | rows' <;> rw [hb] at h
        · simp at h
        · injection h with h
          subst h
          rcases List.mem_cons.mp hr with h1 | h1
          · exact ⟨b, List.mem_cons_self b rest, h1 ▸ mk_row_ok_eq hm⟩
          · obtain ⟨b', hb', hrb'⟩ := ih hb h1
            exact ⟨b', List.mem_cons_of_mem b hb', hrb'⟩

/-- C5: every row of a returned leaderboard carries
`win_pct = round(100 * wins / fights, 1)` for its own `wins` and `fights`
fields. -/
theorem spec_C5 (db : DB) (sort_by : String) (rows : List LeaderboardRow)
    (r : LeaderboardRow) (hok : get_leaderboard db sort_by = .ok rows)
    (hr : r ∈ rows) :
    r.win_pct = round1 (100 * (r.wins : ℚ) / (r.fights : ℚ)) := by
  unfold get_leaderboard at hok
  have key : ∀ {l : DB}, build_rows l = .ok rows →
      r.win_pct = round1 (100 * (r.wins : ℚ) / (r.fights : ℚ)) := by
    intro l hl
    obtain ⟨b, hb, hrb⟩ := build_rows_mem hl hr
    subst hrb
    show round1 (sql_win_pct b * 100) = _
    congr 1
    simp only [mk_row_total]
    unfold sql_win_pct
    ring
  split_ifs at hok
  · exact key hok
  · exact key hok

/-- Witness for C5 at a concrete one-win, two-fight boxer: the returned
leaderboard exists and each of its rows satisfies the win_pct formula. -/
theorem spec_C5_witness :
    ∃ rows, get_leaderboard [⟨1, "Ali", 150, 70, 20, 25, 2, 1⟩] "wins" =
        .ok rows ∧
      ∀ r ∈ rows, r.win_pct = round1 (100 * (r.wins : ℚ) / (r.fights : ℚ)) :=
  ⟨_, rfl, fun r hr =>
    spec_C5 [⟨1, "Ali", 150, 70, 20, 25, 2, 1⟩] "wins" _ r rfl hr⟩

theorem leaderboard_branch (db : DB) (hdb : ValidDB db) (key : BoxerRec → ℚ)
    (rkey : LeaderboardRow → ℚ)
    (hcompat : ∀ a b : BoxerRec, key b ≤ key a →
      rkey (mk_row_total b) ≤ rkey (mk_row_total a)) :
    build_rows (List.insertionSort (fun a b => key b ≤ key a)
        (db.filter (fun b => 0 < b.fights))) =
      .ok ((List.insertionSort (fun a b => key b ≤ key a)
        (db.filter (fun b => 0 < b.fights))).map mk_row_total) ∧
    List.Perm ((List.insertionSort (fun a b => key b ≤ key a)
        (db.filter (fun b => 0 < b.fights))).map mk_row_total)
      ((db.filter (fun b => 0 < b.fights)).map mk_row_total) ∧
    ((List.insertionSort (fun a b => key b ≤ key a)
        (db.filter (fun b => 0 < b.fights))).map mk_row_total).Pairwise
      (fun r1 r2 => rkey r2 ≤ rkey r1) ∧
    ((∀ b ∈ db, b.fights = 0) →
      (List.insertionSort (fun a b => key b ≤ key a)
        (db.filter (fun b => 0 < b.fights))).map mk_row_total = []) := by
  haveI : IsTotal BoxerRec (fun a b => key b ≤ key a) :=
    ⟨fun a b => le_total (key b) (key a)⟩
  haveI : IsTrans BoxerRec (fun a b => key b ≤ key a) :=
    ⟨fun a b c h1 h2 => le_trans h2 h1⟩
  refine ⟨?_, ?_, ?_, ?_⟩
  · apply build_rows_of_valid
    intro b hb
    have hb' : b ∈ db.filter (fun b => 0 < b.fights) :=
      (List.mem_insertionSort _).mp hb
    exact hdb b (List.mem_filter.mp hb').1
  · exact (List.perm_insertionSort _ _).map mk_row_total
  · rw [List.pairwise_map]
    exact (List.sorted_insertionSort _ _).imp (fun hab => hcompat _ _ hab)
  · intro hz
    have hl : db.filter (fun b => 0 < b.fights) = [] := by
      rw [List.filter_eq_nil_iff]
      intro b hb
      simp [hz b hb]
    rw [hl]
    rfl

/-- C4: for a reachable table and a recognized sort key, the leaderboard is
exactly the rendered rows of the boxers with fights > 0, in descending order
of the selected key of each row, and it is empty (not an error) when no boxer
has fights > 0. -/
theorem spec_C4 (db : DB) (sort_by : String)
    (hs : sort_by = "wins" ∨ sort_by = "win_pct")
    (hdb : ∀ b ∈ db, 125 ≤ b.weight) :
    ∃ rows, get_leaderboard db sort_by = .ok rows ∧
      List.Perm rows ((db.filter (fun b => 0 < b.fights)).map mk_row_total) ∧
      rows.Pairwise (fun r1 r2 => row_key sort_by r2 ≤ row_key sort_by r1) ∧
      ((∀ b ∈ db, b.fights = 0) → rows = []) := by
  rcases hs with hs | hs <;> subst hs
  · have hmain := leaderboard_branch db hdb (fun b => (b.wins : ℚ))
      (row_key "wins")
      (by
        intro a b hab
        simpa [row_key] using hab)
    refine ⟨_, ?_, hmain.2.1, hmain.2.2.1, hmain.2.2.2⟩
    unfold get_leaderboard
    rw [if_neg (by decide), if_pos rfl]
    have hcast : (List.insertionSort (fun a b => (b.wins : ℚ) ≤ (a.wins : ℚ))
          (db.filter (fun b => 0 < b.fights))) =
        (List.insertionSort (fun a b => b.wins ≤ a.wins)
          (db.filter (fun b => 0 < b.fights))) := by
      congr 1
      funext a b
      simp
    rw [← hcast]
    exact hmain.1
  · have hmain := leaderboard_branch db hdb sql_win_pct (row_key "win_pct")
      (by
        intro a b hab
        simp only [row_key, if_pos rfl]
        show round1 (sql_win_pct b * 100) ≤ round1 (sql_win_pct a * 100)
        exact round1_mono (by nlinarith))
    refine ⟨_, ?_, hmain.2.1, hmain.2.2.1, hmain.2.2.2⟩
    unfold get_leaderboard
    rw [if_pos rfl]
    exact hmain.1

/-- Witness for C4 on three boxers with wins 10, 20 and 5 plus one boxer with
no fights: the leaderboard exists with the stated shape. -/
theorem spec_C4_witness :
    ∃ rows, get_leaderboard
        [⟨1, "A", 150, 70, 20, 25, 12, 10⟩, ⟨2, "B", 170, 72, 24, 22, 25, 20⟩,
          ⟨3, "C", 160, 68, 18, 34, 9, 5⟩, ⟨4, "D", 210, 75, 26, 30, 0, 0⟩]
        "wins" = .ok rows ∧
      List.Perm rows
        (([⟨1, "A", 150, 70, 20, 25, 12, 10⟩, ⟨2, "B", 170, 72, 24, 22, 25, 20⟩,
          ⟨3, "C", 160, 68, 18, 34, 9, 5⟩, ⟨4, "D", 210, 75, 26, 30, 0, 0⟩] :
            DB).filter (fun b => 0 < b.fights) |>.map mk_row_total) ∧
      rows.Pairwise (fun r1 r2 => row_key "wins" r2 ≤ row_key "wins" r1) ∧
      ((∀ b ∈ [(⟨1, "A", 150, 70, 20, 25, 12, 10⟩ : BoxerRec),
          ⟨2, "B", 170, 72, 24, 22, 25, 20⟩, ⟨3, "C", 160, 68, 18, 34, 9, 5⟩,
          ⟨4, "D", 210, 75, 26, 30, 0, 0⟩], b.fights = 0) → rows = []) :=
  spec_C4 [⟨1, "A", 150, 70, 20, 25, 12, 10⟩, ⟨2, "B", 170, 72, 24, 22, 25, 20⟩,
      ⟨3, "C", 160, 68, 18, 34, 9, 5⟩, ⟨4, "D", 210, 75, 26, 30, 0, 0⟩]
    "wins" (Or.inl rfl) (by decide)

end Boxing
